import Mathlib

/-!
Verification of the image-annotation tool `komp/razmetka.py`.

The development shallowly embeds the program's logic:
* the name sanitizer `sanitize_name` with its transliteration table,
* the preview-to-original coordinate mapper of `ImageProcessor.handle_roi`
  (`int(...)` as truncation toward zero; the program's IEEE-754 binary64
  scale arithmetic is idealized as exact arithmetic — see the caveat on
  `mapRoi`: no universal theorem identifies the mapper with the program,
  and each concrete mapper instance below is float-exact),
* the source loader `ImageProcessor.load_images`,
* the annotation session as a state machine over `MState` with the
  transitions `display_image`, `handle_roi`, `confirm_fragment`,
  `next_image`, together with the `test.tsv` exporter.  A raising callback
  (`AttributeError` on the missing pixmap before any successful display,
  the `cv2.imwrite` assertion on an empty crop) is modelled as `none`:
  the event leaves the session state unchanged.

Python's Unicode-dependent primitives (`str.lower`, `str.isalnum`,
`str.strip`) are modelled faithfully on the character ranges the program
and the properties exercise (ASCII, Cyrillic, Greek); outside those ranges
the models are conservative identities/False, which no theorem below
depends on.
-/

namespace Razmetka

/-- Cyrillic upper-to-lower case table; together with ASCII `Char.toLower`
this models Python `str.lower()` on the alphabets the program handles. -/
def CYR_CASE_MAP : List (Char × Char) :=
  [('А', 'а'), ('Б', 'б'), ('В', 'в'), ('Г', 'г'), ('Д', 'д'), ('Е', 'е'),
   ('Ё', 'ё'), ('Ж', 'ж'), ('З', 'з'), ('И', 'и'), ('Й', 'й'), ('К', 'к'),
   ('Л', 'л'), ('М', 'м'), ('Н', 'н'), ('О', 'о'), ('П', 'п'), ('Р', 'р'),
   ('С', 'с'), ('Т', 'т'), ('У', 'у'), ('Ф', 'ф'), ('Х', 'х'), ('Ц', 'ц'),
   ('Ч', 'ч'), ('Ш', 'ш'), ('Щ', 'щ'), ('Ъ', 'ъ'), ('Ы', 'ы'), ('Ь', 'ь'),
   ('Э', 'э'), ('Ю', 'ю'), ('Я', 'я')]

/-- Model of Python `str.lower()` applied character-wise: ASCII letters via
`Char.toLower`, Cyrillic letters via `CYR_CASE_MAP`, identity elsewhere
(partial model of the Unicode case table; sufficient for the alphabets the
program transliterates). -/
def pyLower (c : Char) : Char :=
  match CYR_CASE_MAP.lookup c with
  | some l => l
  | none => c.toLower

/-- Model of Python `str.isalnum()` for a single character: true on ASCII
alphanumerics, on the Cyrillic letters U+0400..U+045F, and on the Greek
letters U+0391..U+03C9 (excluding the unassigned U+03A2).  Python's
predicate is true on further Unicode categories; the model is faithful on
every character any statement below evaluates it at. -/
def pyIsAlnum (c : Char) : Bool :=
  c.isAlphanum
    || (0x400 ≤ c.toNat && c.toNat ≤ 0x45F)
    || (0x391 ≤ c.toNat && c.toNat ≤ 0x3C9 && c.toNat ≠ 0x3A2)

/-- The transliteration table `TRANSLIT_DICT` of `razmetka.py`, verbatim. -/
def TRANSLIT_DICT : List (Char × String) :=
  [('а', "a"), ('б', "b"), ('в', "v"), ('г', "g"), ('д', "d"), ('е', "e"),
   ('ё', "e"), ('ж', "zh"), ('з', "z"), ('и', "i"), ('й', "y"), ('к', "k"),
   ('л', "l"), ('м', "m"), ('н', "n"), ('о', "o"), ('п', "p"), ('р', "r"),
   ('с', "s"), ('т', "t"), ('у', "u"), ('ф', "f"), ('х', "h"), ('ц', "ts"),
   ('ч', "ch"), ('ш', "sh"), ('щ', "sch"), ('ъ', ""), ('ы', "y"), ('ь', ""),
   ('э', "e"), ('ю', "yu"), ('я', "ya")]

/-- One loop iteration of `sanitize_name`: the characters contributed for
one (already lower-cased) input character.  Mirrors
`if char in TRANSLIT_DICT: ... elif char.isalnum(): ... else drop`. -/
def translitStep (c : Char) : List Char :=
  match TRANSLIT_DICT.lookup c with
  | some t => t.data
  | none => if pyIsAlnum c then [c] else []

/-- `sanitize_name` of `razmetka.py`: lower-case the input, transliterate /
filter each character, concatenate, truncate to 50 characters. -/
def sanitize_name (name : String) : String :=
  String.mk (((name.data.map pyLower).map translitStep).flatten.take 50)

/-- The supported input alphabet of the sanitizer as the spec describes it:
ASCII letters, ASCII digits, and the Cyrillic (Russian-alphabet) letters
covered by the transliteration table, in both cases. -/
def supportedChars : List Char :=
  "abcdefghijklmnopqrstuvwxyzABCDEFGHIJKLMNOPQRSTUVWXYZ0123456789".data
    ++ "абвгдеёжзийклмнопрстуфхцчшщъыьэюяАБВГДЕЁЖЗИЙКЛМНОПРСТУФХЦЧШЩЪЫЬЭЮЯ".data

/-- A character is a lowercase ASCII letter or an ASCII digit. -/
def isLowerAlnumAscii (c : Char) : Bool :=
  ('a' ≤ c && c ≤ 'z') || ('0' ≤ c && c ≤ '9')

/-- Python `int(q)` on a rational: rounding toward zero. -/
def ratTrunc (q : ℚ) : ℤ :=
  if 0 ≤ q then ⌊q⌋ else ⌈q⌉

/-- The exact-rational reading of `ImageProcessor.handle_roi`'s coordinate
computation: per-axis scale factors `original_dim / preview_dim` as exact
rationals, each rectangle coordinate multiplied by its scale and truncated
by `int(...)`. -/
def mapRoiRat (rect : ℤ × ℤ × ℤ × ℤ) (dw dh ow oh : ℕ) : ℤ × ℤ × ℤ × ℤ :=
  let scale_x : ℚ := (ow : ℚ) / (dw : ℚ)
  let scale_y : ℚ := (oh : ℚ) / (dh : ℚ)
  (ratTrunc ((rect.1 : ℚ) * scale_x),
   ratTrunc ((rect.2.1 : ℚ) * scale_y),
   ratTrunc ((rect.2.2.1 : ℚ) * scale_x),
   ratTrunc ((rect.2.2.2 : ℚ) * scale_y))

/-- The coordinate mapper used by the session embedding: the truncated
quotients `trunc(v * orig / preview)`, computed by `Int.tdiv`; theorem
`mapRoiRat_eq_mapRoi` below proves this equal to the exact-rational
reading `mapRoiRat`.

Caveat: the program evaluates `v * (orig / preview)` in IEEE-754 binary64,
which can differ from the exact truncated quotient by one unit on some
inputs (e.g. `int(375 * (36 / 500))` evaluates to 26 in doubles, while
`trunc(375 * 36 / 500) = 27`); no theorem below therefore identifies the
mapper with the program on all inputs, and every *concrete* instance of
`mapRoi` appearing in a theorem below uses a float-exact scale (an integer
power-of-two scale, or values at which double and exact evaluation
provably coincide), where model and program agree bit for bit. -/
def mapRoi (rect : ℤ × ℤ × ℤ × ℤ) (dw dh ow oh : ℕ) : ℤ × ℤ × ℤ × ℤ :=
  ((rect.1 * ow).tdiv dw,
   (rect.2.1 * oh).tdiv dh,
   (rect.2.2.1 * ow).tdiv dw,
   (rect.2.2.2 * oh).tdiv dh)

/-- Length of the Python slice `start:stop` (step 1) of a sequence of
length `len`: negative indices count from the end, then both bounds are
clamped to `[0, len]` and an empty range yields 0 — CPython's
`slice.indices` semantics, which numpy basic slicing follows. -/
def pySliceLen (start stop : ℤ) (len : ℕ) : ℕ :=
  let s : ℤ := if start < 0 then max ((len : ℤ) + start) 0 else min start (len : ℤ)
  let e : ℤ := if stop < 0 then max ((len : ℤ) + stop) 0 else min stop (len : ℤ)
  (e - s).toNat

/-! ## Source loader -/

/-- A decoded image: its pixel dimensions.  (Pixel content is irrelevant to
the claims; crop provenance is tracked through `CropFile.srcIdx`.) -/
structure Img where
  w : Nat
  h : Nat
deriving DecidableEq

/-- Whether the crop `orig_cv_img[y:y+h, x:x+w]` selected by the mapped
rectangle `r = (x, y, w, h)` from an image `img` is empty (zero rows or
zero columns, by Python slice semantics).  `cv2.imwrite` raises on an
empty image. -/
def cropEmpty (r : ℤ × ℤ × ℤ × ℤ) (img : Img) : Bool :=
  pySliceLen r.2.1 (r.2.1 + r.2.2.2) img.h == 0
    || pySliceLen r.1 (r.1 + r.2.2.1) img.w == 0

/-- One source item of `images_list`: temp path, display label, and the
outcome of decoding the temp file (`Except.error e` models the exception
`display_image` catches, with message `e`). -/
structure Item where
  path : String
  label : String
  decode : Except String Img

/-- A crop file written into the crop folder: its file name, the index of
the source item whose decoded image was cropped (provenance), and the
mapped rectangle. -/
structure CropFile where
  fname : String
  srcIdx : Nat
  rect : ℤ × ℤ × ℤ × ℤ

/-- The mutable state of `ImageProcessor`: index, confirmed rows, fragment
counter, pending crop name, entry field, info label, Add-button state, the
displayed pixmap's dimensions and the decoded original (with the ghost
index it was decoded from), the crop files written so far, and the content
of `test.tsv` once written. -/
structure MState where
  current_index : Nat
  results : List String
  fragment_counter : Nat
  current_roi : Option String
  entry_field : String
  info_label : String
  add_enabled : Bool
  pixmap : Option (Nat × Nat)
  orig : Option (Nat × Img)
  crops : List CropFile
  exported : Option String

/-- Python `f"{n:04d}"`: decimal representation left-padded with zeros to
at least four characters. -/
def pad4 (n : Nat) : String :=
  (if n < 10 then "000" else if n < 100 then "00"
   else if n < 1000 then "0" else "") ++ toString n

/-- The crop file name `img_{current_index:04d}_frag_{fragment_counter:04d}.png`. -/
def cropFname (idx ctr : Nat) : String :=
  "img_" ++ pad4 idx ++ "_frag_" ++ pad4 ctr ++ ".png"

/-- `QPixmap.scaledToWidth(500)`: width 500, height scaled to preserve the
aspect ratio (integer rounding approximated by truncation; no claim
depends on the exact preview height). -/
def scaledToWidth500 (img : Img) : Nat × Nat :=
  (500, 500 * img.h / img.w)

/-- `ImageProcessor.display_image`: decode the current item; on failure set
the inline error text and return (everything else untouched); on success
install the decoded original, the scaled pixmap, the info text, clear the
entry field and the pending ROI. -/
def display_image (items : List Item) (s : MState) : MState :=
  match items[s.current_index]? with
  | none => s
  | some it =>
    match it.decode with
    | Except.error e =>
      { s with info_label := "Error loading " ++ it.label ++ ": " ++ e }
    | Except.ok img =>
      { s with
        orig := some (s.current_index, img),
        pixmap := some (scaledToWidth500 img),
        info_label := "Image " ++ toString (s.current_index + 1) ++ "/"
          ++ toString items.length ++ ": " ++ it.label ++ " | Size: "
          ++ toString img.w ++ "x" ++ toString img.h,
        entry_field := "",
        current_roi := none }

/-- `ImageProcessor.handle_roi`: map the selection through the coordinate
mapper, take the crop `orig_cv_img[y:y+h, x:x+w]`, write it with
`cv2.imwrite`, record it as the pending ROI, bump the fragment counter,
enable the Add button.  Returns `none` when the callback raises, leaving
the session unchanged: either no image was ever displayed successfully
(accessing the missing pixmap / original raises `AttributeError`), or the
mapped crop is empty (`cv2.imwrite` raises on an empty image, *before*
`current_roi` is set or the counter incremented). -/
def handle_roi (_items : List Item) (s : MState) (rect : ℤ × ℤ × ℤ × ℤ) :
    Option MState :=
  match s.pixmap, s.orig with
  | some (dw, dh), some (j, img) =>
    let r := mapRoi rect dw dh img.w img.h
    let fname := cropFname s.current_index s.fragment_counter
    match cropEmpty r img with
    | true => none
    | false => some { s with
      crops := s.crops ++ [⟨fname, j, r⟩],
      current_roi := some fname,
      fragment_counter := s.fragment_counter + 1,
      add_enabled := true,
      info_label := "Selected fragment: " ++ fname
        ++ ". Enter text and click 'Add Fragment'" }
  | _, _ => none


/-- Whitespace as Python `str.strip()` removes it: ASCII whitespace plus
the common Unicode space characters (partial model of the Unicode table;
faithful on every character evaluated below). -/
def pyIsSpace (c : Char) : Bool :=
  c = ' ' || c = '\t' || c = '\n' || c = '\r' || c.toNat = 0x0B || c.toNat = 0x0C
    || c.toNat = 0x85 || c.toNat = 0xA0 || c.toNat = 0x1680
    || (0x2000 ≤ c.toNat && c.toNat ≤ 0x200A)
    || c.toNat = 0x2028 || c.toNat = 0x2029 || c.toNat = 0x205F || c.toNat = 0x3000

/-- Python `str.strip()`: drop leading and trailing whitespace. -/
def pyStrip (s : String) : String :=
  String.mk (((s.data.dropWhile pyIsSpace).reverse.dropWhile pyIsSpace).reverse)

/-- `ImageProcessor.confirm_fragment`: with a pending ROI and non-empty
stripped text, append the tab-separated row, clear the pending ROI and the
entry field, disable the Add button; otherwise only show the inline
message. -/
def confirm_fragment (s : MState) : MState :=
  let text := pyStrip s.entry_field
  match s.current_roi with
  | some roi =>
    if text = "" then
      { s with info_label := "Please select fragment and enter text." }
    else
      { s with
        results := s.results ++ [roi ++ "\t" ++ text],
        current_roi := none,
        entry_field := "",
        add_enabled := false,
        info_label := "Fragment saved successfully." }
  | none => { s with info_label := "Please select fragment and enter text." }

/-- The content `next_image` writes to `test.tsv`: the fixed header line
followed by one newline-terminated row per confirmed record. -/
def exportString (results : List String) : String :=
  "filename\ttext\n" ++ String.join (results.map (fun line => line ++ "\n"))

/-- `ImageProcessor.next_image`: bump the index, reset the fragment
counter; display the next item if one remains, otherwise write
`test.tsv`. -/
def next_image (items : List Item) (s : MState) : MState :=
  let s' := { s with current_index := s.current_index + 1, fragment_counter := 0 }
  if s'.current_index < items.length then display_image items s'
  else { s' with exported := some (exportString s'.results) }

/-- `ImageProcessor.__init__`: fresh state; if the loaded list is nonempty,
the first item is displayed immediately. -/
def initState (items : List Item) : MState :=
  let base : MState :=
    { current_index := 0, results := [], fragment_counter := 0,
      current_roi := none, entry_field := "", info_label := "",
      add_enabled := false, pixmap := none, orig := none, crops := [],
      exported := none }
  if items.isEmpty then base else display_image items base

/-- One user-driven event of the session: a completed selection drag (only
when it does not raise), editing the entry field, clicking Add Fragment,
clicking Next Image. -/
inductive Step (items : List Item) : MState → MState → Prop
  | roi {s s' : MState} (r : ℤ × ℤ × ℤ × ℤ)
      (h : handle_roi items s r = some s') : Step items s s'
  | typeText {s : MState} (t : String) : Step items s { s with entry_field := t }
  | confirm {s : MState} : Step items s (confirm_fragment s)
  | next {s : MState} : Step items s (next_image items s)

/-- States the session can reach from startup. -/
inductive Reachable (items : List Item) : MState → Prop
  | init : Reachable items (initState items)
  | step {s s' : MState} : Reachable items s → Step items s s' →
      Reachable items s'

/-! ## Lines of the export file -/

/-- Split a character list at newline characters. -/
def splitNl : List Char → List (List Char)
  | [] => [[]]
  | c :: rest =>
    if c = '\n' then [] :: splitNl rest
    else
      match splitNl rest with
      | [] => [[c]]
      | l :: ls => (c :: l) :: ls

/-- The lines of a newline-terminated file: split at newlines and drop the
empty tail produced by the final newline. -/
def fileLines (s : String) : List String :=
  ((splitNl s.data).map String.mk).dropLast

/-! ## Helper lemmas: sanitizer -/

theorem lookup_mem {β : Type} (l : List (Char × β)) (a : Char) (b : β)
    (h : l.lookup a = some b) : (a, b) ∈ l := by
  induction l with
  | nil => simp [List.lookup] at h
  | cons p ps ih =>
    obtain ⟨k, v⟩ := p
    rw [List.lookup_cons] at h
    cases hab : (a == k) with
    | true =>
      rw [hab] at h
      injection h with hv
      have hak : a = k := eq_of_beq hab
      subst hak; subst hv
      exact List.mem_cons_self _ _
    | false =>
      rw [hab] at h
      exact List.mem_cons_of_mem _ (ih h)

theorem mem_sanitize {s : String} {c : Char}
    (h : c ∈ (sanitize_name s).data) :
    ∃ c0 ∈ s.data, c ∈ translitStep (pyLower c0) := by
  have h' : c ∈ ((s.data.map pyLower).map translitStep).flatten :=
    List.take_subset 50 _ h
  rcases List.mem_flatten.1 h' with ⟨l, hl, hcl⟩
  rcases List.mem_map.1 hl with ⟨c1, hc1, rfl⟩
  rcases List.mem_map.1 hc1 with ⟨c0, hc0, rfl⟩
  exact ⟨c0, hc0, hcl⟩

theorem sanitize_length (s : String) : (sanitize_name s).length ≤ 50 := by
  show (List.take 50 _).length ≤ 50
  rw [List.length_take]
  exact min_le_left _ _

/-! ## Helper lemmas: coordinate mapper -/

theorem ratTrunc_intCast_div (n : ℤ) (d : ℕ) (hd : 0 < d) :
    ratTrunc ((n : ℚ) / (d : ℚ)) = n.tdiv d := by
  have hd0 : (0 : ℚ) < (d : ℚ) := by exact_mod_cast hd
  rcases le_or_lt 0 n with hn | hn
  · have hq : (0 : ℚ) ≤ (n : ℚ) / (d : ℚ) :=
      div_nonneg (by exact_mod_cast hn) hd0.le
    rw [ratTrunc, if_pos hq, Rat.floor_intCast_div_natCast,
      Int.tdiv_eq_ediv hn (by positivity)]
  · have hq : (n : ℚ) / (d : ℚ) < 0 :=
      div_neg_of_neg_of_pos (by exact_mod_cast hn) hd0
    rw [ratTrunc, if_neg (not_le.2 hq)]
    have hrw : (n : ℚ) / (d : ℚ) = -((((-n : ℤ)) : ℚ) / (d : ℚ)) := by
      push_cast; ring
    rw [hrw, Int.ceil_neg, Rat.floor_intCast_div_natCast]
    have h1 : (-n).tdiv d = (-n) / (d : ℤ) :=
      Int.tdiv_eq_ediv (by omega) (by positivity)
    have h2 : n.tdiv (d : ℤ) = -((-n).tdiv d) := by
      rw [Int.neg_tdiv, neg_neg]
    rw [h2, h1]

theorem ratTrunc_scale (a : ℤ) (o d : ℕ) (hd : 0 < d) :
    ratTrunc ((a : ℚ) * ((o : ℚ) / (d : ℚ))) = (a * o).tdiv d := by
  have hrw : (a : ℚ) * ((o : ℚ) / (d : ℚ)) = ((a * (o : ℤ) : ℤ) : ℚ) / (d : ℚ) := by
    push_cast; ring
  rw [hrw, ratTrunc_intCast_div _ _ hd]

/-- The exact-rational reading of the code's coordinate computation agrees
with the truncated-integer-division mapper used by the embedding. -/
theorem mapRoiRat_eq_mapRoi (rect : ℤ × ℤ × ℤ × ℤ) (dw dh ow oh : ℕ)
    (hdw : 0 < dw) (hdh : 0 < dh) :
    mapRoiRat rect dw dh ow oh = mapRoi rect dw dh ow oh := by
  obtain ⟨x, y, w, h⟩ := rect
  unfold mapRoiRat mapRoi
  simp only [ratTrunc_scale _ _ _ hdw, ratTrunc_scale _ _ _ hdh]

/-! ## Claim theorems: sanitizer -/

/-- C3: on input strings drawn from the supported alphabet (ASCII letters,
ASCII digits and the Cyrillic letters of the transliteration table, both
cases), `sanitize_name` yields only lowercase ASCII alphanumeric
characters, has length at most 50, and is deterministic (it is a pure Lean
function; the final conjunct records this textually). -/
theorem sanitize_name_supported_ascii (s : String)
    (h : ∀ c ∈ s.data, c ∈ supportedChars) :
    (∀ c ∈ (sanitize_name s).data, isLowerAlnumAscii c = true)
      ∧ (sanitize_name s).length ≤ 50
      ∧ sanitize_name s = sanitize_name s := by
  refine ⟨?_, sanitize_length s, rfl⟩
  intro c hc
  rcases mem_sanitize hc with ⟨c0, hc0, hstep⟩
  have key : supportedChars.all
      (fun c1 => (translitStep (pyLower c1)).all isLowerAlnumAscii) = true := by
    decide
  exact List.all_eq_true.1 (List.all_eq_true.1 key c0 (h c0 hc0)) c hstep

/-- C3 witness: the supported-alphabet input "Привет123" satisfies the
hypothesis and hence the conclusion. -/
theorem sanitize_name_supported_ascii_witness :
    (∀ c ∈ "Привет123".data, c ∈ supportedChars)
      ∧ ((∀ c ∈ (sanitize_name "Привет123").data, isLowerAlnumAscii c = true)
          ∧ (sanitize_name "Привет123").length ≤ 50
          ∧ sanitize_name "Привет123" = sanitize_name "Привет123") :=
  ⟨by decide, sanitize_name_supported_ascii "Привет123" (by decide)⟩

/-- C9 counterexample: on the (arbitrary, unsupported-alphabet) input "α"
the output of `sanitize_name` is "α" itself — the Greek letter passes the
`isalnum` guard and is not in the transliteration table — so the output is
not ASCII, refuting the claim that every output character is ASCII for
every input string. -/
theorem sanitize_name_ascii_counterexample :
    sanitize_name "α" = "α"
      ∧ ¬(∀ c ∈ (sanitize_name "α").data, c.toNat ≤ 127) := by
  constructor
  · decide
  · decide

/-- C9 amended: `sanitize_name` is a total pure function for arbitrary
input, and every character of its output is alphanumeric (in Python's
`isalnum` sense) — but not necessarily ASCII, since non-ASCII alphanumeric
characters outside the transliteration table pass through unchanged. -/
theorem sanitize_name_total_alnum (s : String) :
    ∀ c ∈ (sanitize_name s).data, pyIsAlnum c = true := by
  intro c hc
  rcases mem_sanitize hc with ⟨c0, _, hstep⟩
  unfold translitStep at hstep
  cases hlk : TRANSLIT_DICT.lookup (pyLower c0) with
  | some t =>
    rw [hlk] at hstep
    have hmem := lookup_mem _ _ _ hlk
    have key : TRANSLIT_DICT.all (fun p => p.2.data.all pyIsAlnum) = true := by
      decide
    exact List.all_eq_true.1 (List.all_eq_true.1 key _ hmem) c hstep
  | none =>
    rw [hlk] at hstep
    by_cases hal : pyIsAlnum (pyLower c0) = true
    · rw [if_pos hal] at hstep
      rcases List.mem_singleton.1 hstep with rfl
      exact hal
    · rw [if_neg hal] at hstep
      cases hstep

/-- C9 amended witness: the character 'z' of `sanitize_name "zя"` is
alphanumeric. -/
theorem sanitize_name_total_alnum_witness :
    'z' ∈ (sanitize_name "zя").data ∧ pyIsAlnum 'z' = true :=
  ⟨by decide, sanitize_name_total_alnum "zя" 'z' (by decide)⟩

/-! ## Claim theorems: coordinate mapper -/

/-- C8: the coordinate mapper does not clamp to the image bounds: the
rectangle (450,450,200,200) on a 500x500 preview of a 1000x1000 original
maps to (900,900,400,400), whose right edge 900+400 = 1300 lies outside
the original's width 1000.  (At these values the scale is exactly 2.0 and
every product is a small integer, so IEEE double evaluation in the program
coincides with the exact values bit for bit.) -/
theorem mapRoi_unclamped :
    mapRoi (450, 450, 200, 200) 500 500 1000 1000 = (900, 900, 400, 400)
      ∧ (900 : ℤ) + 400 > 1000 := by
  constructor
  · decide
  · norm_num

/-! ## Helper lemmas: loader -/

theorem mk_data (s : String) : String.mk s.data = s := by
  cases s; rfl

theorem string_foldl_append_data (l : List String) (acc : String) :
    (l.foldl (fun r s => r ++ s) acc).data
      = acc.data ++ (l.map String.data).flatten := by
  induction l generalizing acc with
  | nil => simp
  | cons x xs ih =>
    rw [List.foldl_cons, ih, String.data_append, List.map_cons,
      List.flatten_cons, List.append_assoc]

theorem string_join_data (l : List String) :
    (String.join l).data = (l.map String.data).flatten := by
  show (l.foldl (fun r s => r ++ s) "").data = _
  rw [string_foldl_append_data]
  rfl

theorem exportString_data (rs : List String) :
    (exportString rs).data
      = "filename\ttext\n".data ++ (rs.map (fun r => r.data ++ ['\n'])).flatten := by
  unfold exportString
  rw [String.data_append, string_join_data, List.map_map]
  congr 1

theorem splitNl_append_cons (xs ys : List Char) (h : '\n' ∉ xs) :
    splitNl (xs ++ '\n' :: ys) = xs :: splitNl ys := by
  induction xs with
  | nil => rfl
  | cons c cs ih =>
    have hc : ¬ (c = '\n') := fun h' => h (h' ▸ List.mem_cons_self c cs)
    have h' : '\n' ∉ cs := fun hm => h (List.mem_cons_of_mem _ hm)
    show splitNl (c :: (cs ++ '\n' :: ys)) = (c :: cs) :: splitNl ys
    simp only [splitNl]
    rw [if_neg hc, ih h']

theorem splitNl_rows (rs : List (List Char)) (h : ∀ r ∈ rs, '\n' ∉ r) :
    splitNl ((rs.map (fun r => r ++ ['\n'])).flatten) = rs ++ [[]] := by
  induction rs with
  | nil => rfl
  | cons r rest ih =>
    have hr : '\n' ∉ r := h r (List.mem_cons_self _ _)
    have hrest : ∀ x ∈ rest, '\n' ∉ x := fun x hx => h x (List.mem_cons_of_mem _ hx)
    show splitNl ((r ++ ['\n']) ++ (rest.map (fun x => x ++ ['\n'])).flatten) = _
    rw [List.append_assoc]
    show splitNl (r ++ '\n' :: (rest.map (fun x => x ++ ['\n'])).flatten) = _
    rw [splitNl_append_cons _ _ hr, ih hrest]
    rfl

theorem fileLines_export (rs : List String) (h : ∀ r ∈ rs, '\n' ∉ r.data) :
    fileLines (exportString rs) = "filename\ttext" :: rs := by
  unfold fileLines
  rw [exportString_data]
  have hconv : splitNl ("filename\ttext\n".data
        ++ (rs.map (fun r => r.data ++ ['\n'])).flatten)
      = splitNl ("filename\ttext".data
        ++ '\n' :: (rs.map (fun r => r.data ++ ['\n'])).flatten) := rfl
  rw [hconv, splitNl_append_cons _ _ (by decide)]
  have hrows : (rs.map (fun r => r.data ++ ['\n']))
      = ((rs.map String.data).map (fun r => r ++ ['\n'])) := by
    rw [List.map_map]
    exact List.map_congr_left (fun r _ => rfl)
  rw [hrows, splitNl_rows (rs.map String.data)
    (fun r hr => by rcases List.mem_map.1 hr with ⟨x, hx, rfl⟩; exact h x hx)]
  rw [List.map_cons, List.map_append, List.map_map]
  have hid : rs.map (String.mk ∘ String.data) = rs := by
    have hpt : ∀ r ∈ rs, (String.mk ∘ String.data) r = id r := fun r _ => mk_data r
    rw [List.map_congr_left hpt, List.map_id]
  rw [hid]
  show ("filename\ttext" :: (rs ++ [""])).dropLast = _
  rw [show "filename\ttext" :: (rs ++ [""])
      = ("filename\ttext" :: rs) ++ [""] from rfl, List.dropLast_concat]

/-! ## Claim theorems: exporter -/

/-- C1: when `next_image` advances past the last source item, the session
writes `test.tsv` holding exactly the header line "filename\ttext"
followed by one tab-separated row per confirmed record, in confirmation
order: for N confirmed records the file has exactly N+1 lines.  (The rows
contain no newline characters: they are built from a crop file name and a
single-line entry-field text.) -/
theorem export_writes_header_and_rows (items : List Item) (s : MState)
    (hlast : s.current_index + 1 = items.length)
    (hnl : ∀ r ∈ s.results, '\n' ∉ r.data) :
    (next_image items s).exported = some (exportString s.results)
      ∧ fileLines (exportString s.results) = "filename\ttext" :: s.results
      ∧ (fileLines (exportString s.results)).length = s.results.length + 1 := by
  refine ⟨?_, fileLines_export s.results hnl, ?_⟩
  · have hng : ¬ (s.current_index + 1 < items.length) := by omega
    simp only [next_image]
    rw [if_neg hng]
  · rw [fileLines_export s.results hnl]
    simp

/-- C1 witness: a one-item session with two confirmed rows exports the
header plus those two rows, 3 lines in all. -/
theorem export_writes_header_and_rows_witness :
    (next_image [⟨"p", "a.png", Except.ok ⟨10, 10⟩⟩]
        { current_index := 0, results := ["r1\tt1", "r2\tt2"],
          fragment_counter := 0, current_roi := none, entry_field := "",
          info_label := "", add_enabled := false, pixmap := none,
          orig := none, crops := [], exported := none }).exported
      = some (exportString ["r1\tt1", "r2\tt2"])
    ∧ fileLines (exportString ["r1\tt1", "r2\tt2"])
      = "filename\ttext" :: ["r1\tt1", "r2\tt2"]
    ∧ (fileLines (exportString ["r1\tt1", "r2\tt2"])).length
      = ["r1\tt1", "r2\tt2"].length + 1 :=
  export_writes_header_and_rows _ _ (by decide) (by decide)

/-! ## Helper lemmas: session state machine -/

/-- Inversion for a successful `handle_roi`: the state must hold a pixmap
and a decoded original, the mapped crop is non-empty (otherwise
`cv2.imwrite` raises), and the result is the source state with the crop
appended, the pending ROI set to the crop name, the counter bumped and the
Add button enabled. -/
theorem handle_roi_some {items : List Item} {s : MState} {r : ℤ × ℤ × ℤ × ℤ}
    {s' : MState} (h : handle_roi items s r = some s') :
    ∃ dw dh j img, s.pixmap = some (dw, dh) ∧ s.orig = some (j, img) ∧
      cropEmpty (mapRoi r dw dh img.w img.h) img = false ∧
      s' = { s with
        crops := s.crops ++ [⟨cropFname s.current_index s.fragment_counter, j,
          mapRoi r dw dh img.w img.h⟩],
        current_roi := some (cropFname s.current_index s.fragment_counter),
        fragment_counter := s.fragment_counter + 1,
        add_enabled := true,
        info_label := "Selected fragment: "
          ++ cropFname s.current_index s.fragment_counter
          ++ ". Enter text and click 'Add Fragment'" } := by
  unfold handle_roi at h
  cases hp : s.pixmap with
  | none =>
    rw [hp] at h
    cases h
  | some p =>
    obtain ⟨dw, dh⟩ := p
    cases ho : s.orig with
    | none =>
      rw [hp, ho] at h
      cases h
    | some q =>
      obtain ⟨j, img⟩ := q
      rw [hp, ho] at h
      dsimp only at h
      cases hE : cropEmpty (mapRoi r dw dh img.w img.h) img with
      | true =>
        rw [hE] at h
        cases h
      | false =>
        rw [hE] at h
        injection h with h'
        exact ⟨dw, dh, j, img, rfl, rfl, hE, h'.symm⟩

/-- `display_image` never installs an original that is not the successful
decode of the item at its index. -/
theorem display_image_orig (items : List Item) (t : MState) (j : ℕ) (img : Img)
    (h : (display_image items t).orig = some (j, img)) :
    t.orig = some (j, img)
      ∨ ∃ it, items[j]? = some it ∧ it.decode = Except.ok img := by
  unfold display_image at h
  cases hget : items[t.current_index]? with
  | none =>
    rw [hget] at h
    exact Or.inl h
  | some it =>
    rw [hget] at h
    dsimp only at h
    cases hdec : it.decode with
    | error e =>
      rw [hdec] at h
      exact Or.inl h
    | ok img0 =>
      rw [hdec] at h
      dsimp only at h
      rw [Option.some.injEq, Prod.mk.injEq] at h
      obtain ⟨h1, h2⟩ := h
      subst h1; subst h2
      exact Or.inr ⟨it, hget, hdec⟩

/-- Invariant: in every reachable state, the decoded original held by the
session is the successful decode of the source item whose (ghost) index it
carries. -/
theorem orig_inv {items : List Item} {s : MState} (h : Reachable items s) :
    ∀ j img, s.orig = some (j, img) →
      ∃ it, items[j]? = some it ∧ it.decode = Except.ok img := by
  induction h with
  | init =>
    intro j img horig
    unfold initState at horig
    by_cases hemp : items.isEmpty
    · rw [if_pos hemp] at horig
      cases horig
    · rw [if_neg hemp] at horig
      rcases display_image_orig items _ j img horig with hbase | hgood
      · cases hbase
      · exact hgood
  | @step s1 s2 _ hstep ih =>
    intro j img horig
    cases hstep with
    | roi r h =>
      obtain ⟨dw, dh, j', img', _, ho, _, rfl⟩ := handle_roi_some h
      exact ih j img horig
    | typeText t =>
      exact ih j img horig
    | confirm =>
      unfold confirm_fragment at horig
      cases hroi : s1.current_roi with
      | some roi =>
        rw [hroi] at horig
        dsimp only at horig
        split at horig
        · exact ih j img horig
        · exact ih j img horig
      | none =>
        rw [hroi] at horig
        dsimp only at horig
        exact ih j img horig
    | next =>
      unfold next_image at horig
      by_cases hlt : s1.current_index + 1 < items.length
      · rw [if_pos hlt] at horig
        rcases display_image_orig items _ j img horig with hkeep | hgood
        · exact ih j img hkeep
        · exact hgood
      · rw [if_neg hlt] at horig
        exact ih j img horig

/-- `display_image` never changes the fragment counter or the index. -/
theorem display_image_counter (items : List Item) (t : MState) :
    (display_image items t).fragment_counter = t.fragment_counter
      ∧ (display_image items t).current_index = t.current_index := by
  rcases hget : items[t.current_index]? with _ | it
  · simp [display_image, hget]
  · rcases hdec : it.decode with e | img
    · simp [display_image, hget, hdec]
    · simp [display_image, hget, hdec]

/-- `next_image` always resets the fragment counter to 0 and bumps the
index by one, in both the display and the export branch. -/
theorem next_image_counter (items : List Item) (s : MState) :
    (next_image items s).fragment_counter = 0
      ∧ (next_image items s).current_index = s.current_index + 1 := by
  unfold next_image
  by_cases hlt : s.current_index + 1 < items.length
  · rw [if_pos hlt]
    exact ⟨(display_image_counter items _).1, (display_image_counter items _).2⟩
  · rw [if_neg hlt]
    exact ⟨rfl, rfl⟩

/-! ## Demo data for witnesses and counterexamples -/

/-- Two source items: the first (1000x1000, preview scale exactly 2.0)
decodes, the second's decode raises. -/
def cexItems : List Item :=
  [⟨"p0", "a.png", Except.ok ⟨1000, 1000⟩⟩, ⟨"p1", "b.png", Except.error "boom"⟩]

/-- One source item (1000x1000, preview scale exactly 2.0) that decodes. -/
def demo1Items : List Item := [⟨"p", "a.png", Except.ok ⟨1000, 1000⟩⟩]

/-- One small source item (10x10): at the 500-wide preview its scale is
10/500, so thin selections map to zero-size crops. -/
def c6Items : List Item := [⟨"p", "small.png", Except.ok ⟨10, 10⟩⟩]

/-- Two source items that both decode (scales 2.0 and 1.0). -/
def demo2Items : List Item :=
  [⟨"p0", "a.png", Except.ok ⟨1000, 1000⟩⟩, ⟨"p1", "b.png", Except.ok ⟨500, 1000⟩⟩]

/-- A session state holding a pending fragment and entry-field text. -/
def c4sPending : MState :=
  { current_index := 0, results := [], fragment_counter := 1,
    current_roi := some "img_0000_frag_0000.png", entry_field := " привет ",
    info_label := "", add_enabled := true, pixmap := some (500, 500),
    orig := some (0, ⟨100, 100⟩), crops := [], exported := none }

/-- State after the first selection on `demo2Items`. -/
def c7s1 : MState :=
  (handle_roi demo2Items (initState demo2Items) (1, 1, 2, 2)).get (by rfl)

/-- State after a second selection without an intervening confirm. -/
def c7s2 : MState := (handle_roi demo2Items c7s1 (3, 3, 4, 4)).get (by rfl)

/-- State after one selection on `cexItems`. -/
def c10s1 : MState :=
  (handle_roi cexItems (initState cexItems) (1, 2, 3, 4)).get (by rfl)

/-- State after advancing to the failing second item of `cexItems`. -/
def c10s2 : MState := next_image cexItems c10s1

/-- State after a selection performed while the failing item is current. -/
def c10s3 : MState := (handle_roi cexItems c10s2 (0, 0, 1, 1)).get (by rfl)

/-! ## Claim theorems: session -/

/-- C4: `confirm_fragment` appends exactly one record (pending crop name,
tab, stripped text), clears the pending fragment, the entry field and the
Add button, when a pending fragment exists and the stripped text is
non-empty; when either precondition fails it changes nothing but the
inline info message. -/
theorem confirm_fragment_guard (s : MState) :
    (∀ roi, s.current_roi = some roi → pyStrip s.entry_field ≠ "" →
      confirm_fragment s =
        { s with
          results := s.results ++ [roi ++ "\t" ++ pyStrip s.entry_field],
          current_roi := none, entry_field := "", add_enabled := false,
          info_label := "Fragment saved successfully." })
    ∧ ((s.current_roi = none ∨ pyStrip s.entry_field = "") →
      confirm_fragment s =
        { s with info_label := "Please select fragment and enter text." }) := by
  constructor
  · intro roi hroi htxt
    unfold confirm_fragment
    rw [hroi]
    dsimp only
    rw [if_neg htxt]
  · intro hfail
    unfold confirm_fragment
    rcases hfail with hnone | htxt
    · rw [hnone]
    · cases hroi : s.current_roi with
      | none => rfl
      | some roi =>
        dsimp only
        rw [if_pos htxt]

/-- C4 witness: confirming with a pending fragment and text " привет "
appends one row; confirming the same state without a pending fragment only
changes the message. -/
theorem confirm_fragment_guard_witness :
    confirm_fragment c4sPending =
      { c4sPending with
        results := ["img_0000_frag_0000.png" ++ "\t" ++ pyStrip c4sPending.entry_field],
        current_roi := none, entry_field := "", add_enabled := false,
        info_label := "Fragment saved successfully." }
    ∧ confirm_fragment { c4sPending with current_roi := none } =
      { c4sPending with
        current_roi := none,
        info_label := "Please select fragment and enter text." } :=
  ⟨(confirm_fragment_guard c4sPending).1 "img_0000_frag_0000.png" rfl (by decide),
   (confirm_fragment_guard { c4sPending with current_roi := none }).2 (Or.inl rfl)⟩

/-- C6 counterexample: not every completed selection writes a crop.  On the
10x10 original of `c6Items` shown at the 500-wide preview, the selection
(0,0,5,5) maps to width and height 0 (`int(5 * (10/500)) = 0`, identically
in doubles and in exact arithmetic), the crop `orig[0:0, 0:0]` is empty,
and `cv2.imwrite` raises — before `current_roi` is set or the counter
incremented — so nothing is written and the session is unchanged (the
model's `none`), refuting "Every selectRegion immediately writes the crop
image ... and then increments the fragment counter". -/
theorem empty_crop_write_fails :
    mapRoi (0, 0, 5, 5) 500 500 10 10 = (0, 0, 0, 0)
      ∧ handle_roi c6Items (initState c6Items) (0, 0, 5, 5) = none := by
  constructor
  · decide
  · rfl

/-- C6 amended: a completed selection whose mapped crop is non-empty
writes exactly one crop file named
`img_{current_index:04d}_frag_{fragment_counter:04d}.png` (both 0-indexed,
zero-padded to 4 digits), makes it the pending fragment and then
increments the fragment counter; when the mapped width or height truncates
to 0 the crop is empty, `cv2.imwrite` raises and nothing is written or
incremented; `next_image` resets the fragment counter to 0 while
incrementing the source index, so fragment numbering restarts at 0 on each
source image. -/
theorem crop_naming_and_counter (items : List Item) (s : MState)
    (r : ℤ × ℤ × ℤ × ℤ) (dw dh : ℕ) (j : ℕ) (img : Img)
    (hp : s.pixmap = some (dw, dh)) (ho : s.orig = some (j, img)) :
    (∀ s', handle_roi items s r = some s' →
        ∃ c, s'.crops = s.crops ++ [c]
          ∧ c.fname = cropFname s.current_index s.fragment_counter
          ∧ s'.fragment_counter = s.fragment_counter + 1
          ∧ s'.current_roi = some c.fname)
    ∧ (cropEmpty (mapRoi r dw dh img.w img.h) img = false →
        handle_roi items s r = some
          { s with
            crops := s.crops ++ [⟨cropFname s.current_index s.fragment_counter, j,
              mapRoi r dw dh img.w img.h⟩],
            current_roi := some (cropFname s.current_index s.fragment_counter),
            fragment_counter := s.fragment_counter + 1,
            add_enabled := true,
            info_label := "Selected fragment: "
              ++ cropFname s.current_index s.fragment_counter
              ++ ". Enter text and click 'Add Fragment'" })
    ∧ (cropEmpty (mapRoi r dw dh img.w img.h) img = true →
        handle_roi items s r = none)
    ∧ (next_image items s).fragment_counter = 0
    ∧ (next_image items s).current_index = s.current_index + 1
    ∧ cropFname 0 0 = "img_0000_frag_0000.png"
    ∧ cropFname 12 3 = "img_0012_frag_0003.png" := by
  have hbody : handle_roi items s r =
      match cropEmpty (mapRoi r dw dh img.w img.h) img with
      | true => none
      | false => some
        { s with
          crops := s.crops ++ [⟨cropFname s.current_index s.fragment_counter, j,
            mapRoi r dw dh img.w img.h⟩],
          current_roi := some (cropFname s.current_index s.fragment_counter),
          fragment_counter := s.fragment_counter + 1,
          add_enabled := true,
          info_label := "Selected fragment: "
            ++ cropFname s.current_index s.fragment_counter
            ++ ". Enter text and click 'Add Fragment'" } := by
    unfold handle_roi
    rw [hp, ho]
  refine ⟨?_, ?_, ?_, (next_image_counter items s).1,
    (next_image_counter items s).2, by decide, by decide⟩
  · intro s' h
    obtain ⟨dw', dh', j', img', hp', ho', _, rfl⟩ := handle_roi_some h
    exact ⟨_, rfl, rfl, rfl, rfl⟩
  · intro hE
    rw [hbody, hE]
  · intro hE
    rw [hbody, hE]

/-- C6 amended witness: on the 1000x1000 image of `demo1Items` (scale
exactly 2.0) the selection (0,0,5,5) maps to the non-empty crop rect
(0,0,10,10), so the first selection writes `img_0000_frag_0000.png`, makes
it pending and bumps the counter to 1; advancing resets the counter and
bumps the index. -/
theorem crop_naming_and_counter_witness :
    cropEmpty (mapRoi (0, 0, 5, 5) 500 500 1000 1000) ⟨1000, 1000⟩ = false
    ∧ handle_roi demo1Items (initState demo1Items) (0, 0, 5, 5) = some
        { initState demo1Items with
          crops := (initState demo1Items).crops
            ++ [⟨cropFname 0 0, 0, mapRoi (0, 0, 5, 5) 500 500 1000 1000⟩],
          current_roi := some (cropFname 0 0),
          fragment_counter := 1,
          add_enabled := true,
          info_label := "Selected fragment: " ++ cropFname 0 0
            ++ ". Enter text and click 'Add Fragment'" }
    ∧ (next_image demo1Items (initState demo1Items)).fragment_counter = 0
    ∧ (next_image demo1Items (initState demo1Items)).current_index
        = (initState demo1Items).current_index + 1 :=
  ⟨by decide,
   (crop_naming_and_counter demo1Items (initState demo1Items) (0, 0, 5, 5)
      500 500 0 ⟨1000, 1000⟩ rfl rfl).2.1 (by decide),
   (crop_naming_and_counter demo1Items (initState demo1Items) (0, 0, 5, 5)
      500 500 0 ⟨1000, 1000⟩ rfl rfl).2.2.2.1,
   (crop_naming_and_counter demo1Items (initState demo1Items) (0, 0, 5, 5)
      500 500 0 ⟨1000, 1000⟩ rfl rfl).2.2.2.2.1⟩

/-- C7 counterexample: select on image 0 of `cexItems`, then advance;
image 1 fails to decode, `display_image` returns early, and the pending
fragment from image 0 is still set — advancing to the next image did not
clear it, refuting the claim's "cleared ... on advancing to the next
image". -/
theorem pending_roi_after_failed_advance :
    (handle_roi cexItems (initState cexItems) (1, 2, 3, 4)).map
        (fun s => (next_image cexItems s).current_roi)
      = some (some "img_0000_frag_0000.png") := rfl

/-- C7 amended: the session holds at most one pending fragment (it is a
single optional field, and each successful selection overwrites it with
the newest crop name); it is cleared by a successful confirm and by
advancing to a next image that displays successfully — but if the next
item fails to decode, the pending fragment of the previous image
persists. -/
theorem pending_fragment_lifecycle (items : List Item) (s : MState) :
    (∀ r s', handle_roi items s r = some s' →
        s'.current_roi = some (cropFname s.current_index s.fragment_counter))
    ∧ (∀ roi, s.current_roi = some roi → pyStrip s.entry_field ≠ "" →
        (confirm_fragment s).current_roi = none)
    ∧ (∀ it img, items[s.current_index + 1]? = some it →
        it.decode = Except.ok img → (next_image items s).current_roi = none) := by
  refine ⟨?_, ?_, ?_⟩
  · intro r s' h
    obtain ⟨dw, dh, j, img, _, _, _, rfl⟩ := handle_roi_some h
    rfl
  · intro roi hroi htxt
    unfold confirm_fragment
    rw [hroi]
    dsimp only
    rw [if_neg htxt]
  · intro it img hit hdec
    have hlt : s.current_index + 1 < items.length := by
      rcases List.getElem?_eq_some.1 hit with ⟨hl, _⟩
      exact hl
    simp [next_image, display_image, hlt, hit, hdec]

/-- C7 amended witness: after two consecutive selections on image 0 of
`demo2Items` the single pending fragment is the second crop's name; typing
text and confirming clears it; advancing to the (successfully decoding)
next image also clears it. -/
theorem pending_fragment_lifecycle_witness :
    c7s2.current_roi = some (cropFname 0 1)
    ∧ (confirm_fragment { c7s2 with entry_field := "hi" }).current_roi = none
    ∧ (next_image demo2Items c7s2).current_roi = none := by
  refine ⟨?_, ?_, ?_⟩
  · exact (pending_fragment_lifecycle demo2Items c7s1).1 (3, 3, 4, 4) c7s2
      (Option.some_get (by rfl)).symm
  · exact (pending_fragment_lifecycle demo2Items
      { c7s2 with entry_field := "hi" }).2.1 (cropFname 0 1) rfl (by decide)
  · exact (pending_fragment_lifecycle demo2Items c7s2).2.2
      ⟨"p1", "b.png", Except.ok ⟨500, 1000⟩⟩ ⟨500, 1000⟩ rfl rfl

/-- C10: in any reachable state whose current item fails to decode,
`display_image` reports the error inline in the info text and changes
nothing else; and a completed selection, if it does not raise, appends a
crop taken from a previously decoded item — never one derived from the
failed current item — and the resulting pending fragment refers to that
crop. -/
theorem failed_item_interaction (items : List Item) (s : MState)
    (hr : Reachable items s) (it : Item)
    (hit : items[s.current_index]? = some it) (e : String)
    (he : it.decode = Except.error e) :
    display_image items s
        = { s with info_label := "Error loading " ++ it.label ++ ": " ++ e }
    ∧ ∀ r s', handle_roi items s r = some s' →
        ∃ c, s'.crops = s.crops ++ [c] ∧ c.srcIdx ≠ s.current_index
          ∧ s'.current_roi = some c.fname := by
  constructor
  · unfold display_image
    rw [hit]
    dsimp only
    rw [he]
  · intro r s' h
    obtain ⟨dw, dh, j, img, hp, ho, hne, rfl⟩ := handle_roi_some h
    refine ⟨⟨cropFname s.current_index s.fragment_counter, j,
      mapRoi r dw dh img.w img.h⟩, rfl, ?_, rfl⟩
    intro hj
    have hj' : j = s.current_index := hj
    obtain ⟨it', hit', hdec⟩ := orig_inv hr j img ho
    rw [hj', hit] at hit'
    injection hit' with h1
    rw [← h1, he] at hdec
    exact Except.noConfusion hdec

/-- C10 witness: on `cexItems`, after selecting on image 0 and advancing
to the failing image 1 (a reachable state), `display_image` shows the
inline error and a selection writes a crop whose source is item 0, not the
failed item 1. -/
theorem failed_item_interaction_witness :
    display_image cexItems c10s2
        = { c10s2 with info_label := "Error loading " ++ "b.png" ++ ": " ++ "boom" }
    ∧ ∃ c, c10s3.crops = c10s2.crops ++ [c] ∧ c.srcIdx ≠ c10s2.current_index
        ∧ c10s3.current_roi = some c.fname := by
  have hreach : Reachable cexItems c10s2 :=
    Reachable.step
      (Reachable.step Reachable.init
        (Step.roi (1, 2, 3, 4) (Option.some_get (by rfl)).symm))
      Step.next
  have hmain := failed_item_interaction cexItems c10s2 hreach
    ⟨"p1", "b.png", Except.error "boom"⟩ rfl "boom" rfl
  exact ⟨hmain.1, hmain.2 (0, 0, 1, 1) c10s3 (Option.some_get (by rfl)).symm⟩

end Razmetka
